import Mathlib

/-
Verification of the cloud-report benchmark script generator.

The repository has two source files:
  * cmd/generate.go       - resolves per-target argument maps, renders one
                            orchestration driver script per machine type;
  * scripts/gen/tpcc.sh   - the adaptive load-escalation (TPCC ramp) controller
                            executed on the cluster.

This file gives a shallow embedding of the data model and operations of both,
and proves (or refutes) the specified properties about them.

Modelling conventions:
  * Go map[string]string values are embedded as association lists
    (List (String x String)); a possibly-nil Go map is Option of that.
    Go map lookup is List.lookup.  Go map iteration order is arbitrary, so
    only order-independent facts (lookup results, key sets) are claimed.
  * Machine strings are embedded as Lean String / List Char.
  * The bash control flow of tpcc.sh is embedded as explicit recursion;
    runtime non-determinism (a command failing, a SIGINT arriving) is
    embedded as an oracle function consulted at each step.
-/

/-! ### Argument-map merge (cmd/generate.go, combineArgs, lines 303-313)

Go source:
  if machineArgs == nil { return baseArgs }
  for arg, val := range baseArgs {
    if _, found := machineArgs[arg]; !found { machineArgs[arg] = val }
  }
  return machineArgs

As a map (key -> value) the result holds every machineArgs entry plus every
baseArgs entry whose key is absent from machineArgs.  The association-list
embedding puts the machine entries first and the inherited base entries after,
which realises exactly that lookup behaviour. -/
def combineArgs (machineArgs : Option (List (String × String)))
    (baseArgs : List (String × String)) : List (String × String) :=
  match machineArgs with
  | none => baseArgs
  | some m => m ++ baseArgs.filter (fun kv => (List.lookup kv.1 m).isNone)

/-- Heap-level embedding of combineArgs.  Go maps are reference values: the
store maps a reference (Nat) to the map's entries.  combineArgs either returns
the baseArgs reference unchanged (nil machine map) or writes the merged
entries through the machineArgs reference and returns that reference.  The
base reference is never written (the Go loop only ranges over baseArgs).
The returned Nat is the reference of the map the caller receives. -/
def combineArgsHeap (machineRef : Option Nat) (baseRef : Nat)
    (st : Nat → List (String × String)) : Nat × (Nat → List (String × String)) :=
  match machineRef with
  | none => (baseRef, st)
  | some r =>
      (r, fun r2 => if r2 = r then combineArgs (some (st r)) (st baseRef) else st r2)

/-- Concrete two-map store used to exercise the heap embedding: reference 0 is
the cloud-level (default) map, reference 1 a machine-specific map. -/
def st1 : Nat → List (String × String) := fun r =>
  if r = 0 then [("lifetime", "24h")] else [("gce-zones", "us-east1-b")]

/-! ### Template evaluation of deployment arguments (cmd/generate.go, evalArgs, lines 315-326)

Go source:
  for arg, val := range inputArgs {
    buf := bytes.NewBuffer(nil)
    if err := template.Must(template.New("arg").Parse(val)).Execute(buf, templateArgs); err != nil {
      return fmt.Errorf("error evaluating arg %s: %v", arg, err)
    }
    evaledArgs[arg] = buf.String()
  }

text/template is an external library; its Parse and Execute steps are
embedded as oracle functions.  The crucial structural fact of the Go code is
that Parse runs inside template.Must, which panics on a parse error instead
of returning through the error path that names the argument; Execute errors
do flow through the named-error path. -/
inductive EvalOutcome where
  | panicked (msg : String)
  | errored (msg : String)
  | evaled (result : List (String × String))
deriving DecidableEq

/-- Embeds the evalArgs loop.  tparse models text/template Parse (its error
aborts via template.Must, i.e. a panic); texec models Execute on the
successfully parsed template of the given source value. -/
def evalArgs (tparse : String → Except String Unit)
    (texec : String → Except String String) :
    List (String × String) → EvalOutcome
  | [] => EvalOutcome.evaled []
  | (arg, val) :: rest =>
    match tparse val with
    | Except.error msg => EvalOutcome.panicked msg
    | Except.ok _ =>
      match texec val with
      | Except.error msg =>
          EvalOutcome.errored ("error evaluating arg " ++ arg ++ ": " ++ msg)
      | Except.ok evaluated =>
        match evalArgs tparse texec rest with
        | EvalOutcome.evaled m => EvalOutcome.evaled ((arg, evaluated) :: m)
        | other => other

/-- Decides whether needle is a prefix of hay (character lists). -/
def subAt : List Char → List Char → Bool
  | [], _ => true
  | _ :: _, [] => false
  | c :: cs, d :: ds => c == d && subAt cs ds

/-- Decides whether needle occurs contiguously anywhere inside hay. -/
def hasSub (needle : List Char) : List Char → Bool
  | [] => subAt needle []
  | d :: ds => subAt needle (d :: ds) || hasSub needle ds

/-- Holds when the outcome is a returned error whose message mentions the
given argument name. -/
def namesArg (r : EvalOutcome) (arg : String) : Bool :=
  match r with
  | EvalOutcome.errored msg => hasSub arg.data msg.data
  | _ => false

/-- Key list of a successful outcome, none on any abort. -/
def keysOf (r : EvalOutcome) : Option (List String) :=
  match r with
  | EvalOutcome.evaled m => some (m.map Prod.fst)
  | _ => none

/-- Boolean success test for Except. -/
def exOk {α : Type} : Except String α → Bool
  | Except.ok _ => true
  | Except.error _ => false

/-- Concrete parse oracle reflecting text/template behaviour on the template
source "\x7b\x7b" (an unclosed action): Parse fails, so template.Must panics. -/
def tparse0 : String → Except String Unit := fun v =>
  if v = "\x7b\x7b" then Except.error "template: arg: unclosed action" else Except.ok ()

/-- Concrete execute oracle reflecting text/template behaviour on the template
source "\x7b\x7b.Nope\x7d\x7d": the scriptData context has no field Nope, so
Execute returns an error; every other value executes to itself. -/
def texec0 : String → Except String String := fun v =>
  if v = "\x7b\x7b.Nope\x7d\x7d" then
    Except.error "cannot evaluate field Nope in type scriptData"
  else Except.ok v

/-! ### Rendering the deployment-argument string (cmd/generate.go, lines 369-379)

Go source:
  for arg, val := range evaledArgs {
    if buf.Len() > 0 { buf.WriteByte(' ') }
    fmt.Fprintf(buf, "--%s", arg)
    if len(val) > 0 { fmt.Fprintf(buf, "=%q", val) }
  }
-/

/-- One character of Go %q quoting (strconv escaping restricted to the escape
classes that matter here: quote, backslash, newline, tab; other characters
print verbatim). -/
def goQuoteChar (c : Char) : List Char :=
  if c = '"' then ['\\', '"']
  else if c = '\\' then ['\\', '\\']
  else if c = '\n' then ['\\', 'n']
  else if c = '\t' then ['\\', 't']
  else [c]

/-- Go %q of a string: escaped body wrapped in double quotes. -/
def goQuote (s : String) : String :=
  String.mk ('"' :: (s.data.map goQuoteChar).flatten ++ ['"'])

/-- The fragment the Go loop body appends for one argument: always the flag
name, and the quoted value only when the value is non-empty. -/
def renderArg (kv : String × String) : String :=
  "--" ++ kv.1 ++ (if 0 < kv.2.length then "=" ++ goQuote kv.2 else "")

/-- One iteration of the Go rendering loop: a separating space only when the
buffer is non-empty, then the argument fragment. -/
def renderStep (buf : String) (kv : String × String) : String :=
  (if 0 < buf.length then buf ++ " " else buf) ++ renderArg kv

/-- The full rendered deployment-argument string (the EvaledArgs field). -/
def renderEvaledArgs (args : List (String × String)) : String :=
  args.foldl renderStep ""

/-- Modelled from the spec wording of the rendering rule: an argument with an
empty value is emitted as the bare flag, a non-empty value as
flag=quoted-value.  Used as the refinement target for the rendering claim. -/
def specFragment (kv : String × String) : String :=
  if kv.2 = "" then "--" ++ kv.1 else "--" ++ kv.1 ++ "=" ++ goQuote kv.2

/-- Modelled from the spec wording: the per-argument fragments joined by
single spaces. -/
def renderedSpec : List (String × String) → String
  | [] => ""
  | [kv] => specFragment kv
  | kv :: kv2 :: rest => specFragment kv ++ " " ++ renderedSpec (kv2 :: rest)

/-- Tail of a rendered argument string: each remaining fragment preceded by
its separating space.  Auxiliary shape for reasoning about the fold. -/
def joinTail : List (String × String) → String
  | [] => ""
  | kv :: rest => " " ++ renderArg kv ++ joinTail rest

/-! ### Cluster identity (cmd/generate.go, lines 346-351)

Go source:
  clusterName := fmt.Sprintf("cldrprt%d-%s-%d",
    (1+time.Now().Year())%1000, machineType,
    hashStrings(cloud.Cloud, cloud.Group, reportVersion))
  validClusterName := regexp.MustCompile MATCHING the class dot, pipe, underscore
  clusterName = validClusterName.ReplaceAllString(clusterName, "-")

The regular expression is the character class containing exactly the three
characters dot, pipe and underscore, so ReplaceAllString rewrites each
occurrence of one of those characters to a hyphen and leaves every other
character alone.  The year modulus and the crc32 hash render as decimal
digit sequences; they are embedded as Nat parameters printed with Nat.repr. -/

/-- One character of the sanitization pass: dot, pipe and underscore become a
hyphen, everything else is kept. -/
def sanitizeChar (c : Char) : Char :=
  if c == '.' || c == '|' || c == '_' then '-' else c

/-- Character-wise sanitization of the whole name. -/
def sanitizeChars (cs : List Char) : List Char := cs.map sanitizeChar

/-- Characters the specification allows in the identity: letters, digits,
hyphen. -/
def allowedChar (c : Char) : Bool := c.isAlpha || c.isDigit || c == '-'

/-- The unsanitized cluster name: "cldrprt" ++ year-mod digits ++ "-" ++
machine type ++ "-" ++ hash digits. -/
def clusterNameChars (yearMod : Nat) (machineType : List Char) (hashVal : Nat) : List Char :=
  ("cldrprt" ++ Nat.repr yearMod ++ "-").data ++ machineType ++ ("-" ++ Nat.repr hashVal).data

/-- The generated cluster identity after sanitization. -/
def clusterNameGen (yearMod : Nat) (machineType : List Char) (hashVal : Nat) : List Char :=
  sanitizeChars (clusterNameChars yearMod machineType hashVal)

/-! ### Driver script benchmark phases (cmd/generate.go driverTemplate, lines 226-297)

The rendered script parses flags into do_create / do_upload / do_setup /
do_destroy / f_resume and a benchmarks array, then issues commands in a fixed
order: create, upload, setup, then (unless resuming) every requested
benchmark's start, then every requested benchmark's wait-and-fetch, then
destroy.  The embedding records the issued commands as a trace. -/

structure DriverFlags where
  doCreate : Bool
  doUpload : Bool
  doSetup : Bool
  doDestroy : Bool
  resume : Bool
  benchmarks : List String

inductive DriverCmd where
  | createCluster
  | uploadScripts
  | setupCluster
  | startBench (bench : String)
  | waitFetch (bench : String)
  | destroyCluster
deriving DecidableEq

/-- Recognises a benchmark-start command. -/
def isStartBench : DriverCmd → Bool
  | DriverCmd.startBench _ => true
  | _ => false

/-- Recognises a wait-and-fetch command. -/
def isWaitFetch : DriverCmd → Bool
  | DriverCmd.waitFetch _ => true
  | _ => false

/-- Command trace of one driver-script run, in issue order, mirroring the
bottom half of the generated script: the three gated bootstrap phases, the
start loop guarded by "if [ -z \"$f_resume\" ]", the unconditional
wait-and-fetch loop, and the gated destroy. -/
def driverTrace (f : DriverFlags) : List DriverCmd :=
  (if f.doCreate then [DriverCmd.createCluster] else []) ++
  (if f.doUpload then [DriverCmd.uploadScripts] else []) ++
  (if f.doSetup then [DriverCmd.setupCluster] else []) ++
  (if f.resume then [] else f.benchmarks.map DriverCmd.startBench) ++
  f.benchmarks.map DriverCmd.waitFetch ++
  (if f.doDestroy then [DriverCmd.destroyCluster] else [])

/-- Flag set of an invocation with -r and two requested benchmarks. -/
def resumeOnlyFlags : DriverFlags :=
  ⟨false, false, false, false, true, ["bench_cpu", "bench_tpcc"]⟩

/-! ### TPCC escalation controller (scripts/gen/tpcc.sh)

The ramp loop, lines 90-111:
  if [[ $f_inc == 0 ]]; then f_inc=$f_warehouses; fi
  for active in (seq $f_active $f_inc $f_warehouses); do
    run the workload at $active active warehouses, writing a report file;
    if the last report line fails the awk rule (col3 > 85 and col7 < 10000),
    break
  done
  touch "$logdir/success"

The report's last line is embedded as an oracle from the level to its
(column 3, column 7) values, which is all the rule reads. -/

/-- The awk pass rule on the last report line: column 3 strictly above 85 and
column 7 strictly below 10000. -/
def passRule (cols : Int × Int) : Bool :=
  decide (85 < cols.1) && decide (cols.2 < 10000)

/-- Levels actually run by the loop: each level runs its workload first, then
the rule on its report decides whether the loop continues. -/
def rampLoop (rep : Int → Int × Int) : List Int → List Int
  | [] => []
  | active :: rest =>
    active :: (if passRule (rep active) then rampLoop rep rest else [])

structure RampResult where
  levelsRun : List Int
  successWritten : Bool

/-- Result of the ramp phase when it terminates normally: the levels run, and
whether the success marker got touched.  In the script the touch command sits
unconditionally after the loop, so it runs both after exhaustion and after a
break. -/
def rampPhase (levels : List Int) (rep : Int → Int × Int) : RampResult :=
  { levelsRun := rampLoop rep levels, successWritten := true }

/-- GNU seq with a positive increment: first, first+inc, ... while the value
stays at most last; empty when first exceeds last.  (The script only reaches
seq with a positive increment: the default is 250 and a zero increment is
replaced by the warehouse count first.) -/
def seqBash (first inc last : Int) : List Int :=
  if 0 < inc ∧ first ≤ last then
    (List.range (((last - first).toNat / inc.toNat) + 1)).map
      (fun i => first + inc * (i : Int))
  else []

/-- The zero-increment fixup on line 90-93: a zero increment becomes the
warehouse count. -/
def effInc (fInc fWarehouses : Int) : Int :=
  if fInc = 0 then fWarehouses else fInc

/-- Report oracle for the concrete scenario of the stop-rule property:
level 2500 reports (86, 9000), level 2750 reports (84, 9500). -/
def repC3 (active : Int) : Int × Int :=
  if active = 2500 then (86, 9000)
  else if active = 2750 then (84, 9500)
  else (0, 0)

/-- Report oracle whose very first consulted level already fails the rule. -/
def repFailFirst (_ : Int) : Int × Int := (84, 20000)

/-! ### Liveness-marker (pid file) cleanup (scripts/gen/tpcc.sh, lines 66-67)

After the single-instance guard the script runs
  trap "rm -f $pidfile" EXIT SIGINT
  echo $$ > "$pidfile"
followed by the body (directory reset, optional load, ramp loop, marker
touch) under set -e.  The embedding is a small-step interpreter over an
abstract script: the trap installation, the pid-file write, and opaque shell
commands.  At each step an oracle decides whether the step succeeds, fails
(set -e then exits the script), or a SIGINT arrives first; on any exit the
EXIT/SIGINT trap runs if and only if it was installed, removing the pid
file. -/

inductive StepOutcome where
  | ok
  | fail
  | interrupt

structure TrapState where
  pidfilePresent : Bool
  trapInstalled : Bool

inductive TpccStep where
  | installTrap
  | writePidfile
  | shellCmd

/-- Effect of leaving the script by any path: the trap body (rm -f pidfile)
runs exactly when the trap was installed. -/
def onExit (s : TrapState) : TrapState :=
  if s.trapInstalled then { s with pidfilePresent := false } else s

/-- Small-step execution of the guarded section.  The oracle is consulted
before each step: fail models the step's command returning non-zero (set -e
exits), interrupt models SIGINT arriving before the step. -/
def runGuarded (oracle : Nat → StepOutcome) : Nat → TrapState → List TpccStep → TrapState
  | _, s, [] => onExit s
  | i, s, step :: rest =>
    match oracle i with
    | StepOutcome.interrupt => onExit s
    | StepOutcome.fail => onExit s
    | StepOutcome.ok =>
      match step with
      | TpccStep.installTrap => runGuarded oracle (i+1) { s with trapInstalled := true } rest
      | TpccStep.writePidfile => runGuarded oracle (i+1) { s with pidfilePresent := true } rest
      | TpccStep.shellCmd => runGuarded oracle (i+1) s rest

/-- The guarded section of tpcc.sh in step form: install the trap, write the
pid file, then the body (any list of further commands). -/
def tpccMainSteps (body : List TpccStep) : List TpccStep :=
  TpccStep.installTrap :: TpccStep.writePidfile :: body

/-! ## Theorems -/

/-! ### Helper lemmas about association-list lookup -/

theorem lookup_filter_keyPred (p : String → Bool) (xs : List (String × String)) (k : String) :
    List.lookup k (xs.filter (fun kv => p kv.1)) = if p k then List.lookup k xs else none := by
  induction xs with
  | nil => simp [List.lookup]
  | cons hd tl ih =>
    obtain ⟨a, b⟩ := hd
    by_cases hp : p a
    · by_cases hk : (k == a)
      · have hk2 : k = a := by simpa using hk
        subst hk2
        simp [List.filter_cons, List.lookup, hp, hk]
      · simp [List.filter_cons, List.lookup, hp, hk, ih]
    · by_cases hk : (k == a)
      · have hk2 : k = a := by simpa using hk
        subst hk2
        simp [List.filter_cons, List.lookup, hp, hk, ih]
      · simp [List.filter_cons, List.lookup, hp, hk, ih]

theorem lookup_append_assoc (l1 l2 : List (String × String)) (k : String) :
    List.lookup k (l1 ++ l2) =
      match List.lookup k l1 with
      | some v => some v
      | none => List.lookup k l2 := by
  induction l1 with
  | nil => simp [List.lookup]
  | cons hd tl ih =>
    obtain ⟨a, b⟩ := hd
    by_cases hk : (k == a)
    · simp [List.lookup, hk]
    · simp [List.lookup, hk, ih]

/-! ### C2: merge invariant of combineArgs -/

/-- C2: for every target map T and default map D, the merged map agrees with
T on every key of T, agrees with D on every key of D not in T, and holds no
other key (the lookup is none when the key is in neither); the nil target map
inherits D wholesale. -/
theorem combineArgs_merge_invariant (m base : List (String × String)) (k : String) :
    (List.lookup k (combineArgs (some m) base) =
      match List.lookup k m with
      | some v => some v
      | none => List.lookup k base) ∧
    List.lookup k (combineArgs none base) = List.lookup k base := by
  constructor
  · show List.lookup k (m ++ base.filter fun kv => (List.lookup kv.1 m).isNone) = _
    rw [lookup_append_assoc]
    cases hm : List.lookup k m with
    | some v => simp
    | none =>
      simp only
      rw [lookup_filter_keyPred (fun s => (List.lookup s m).isNone) base k]
      rw [if_pos (by simp [hm])]
  · rfl

/-! ### C3: the escalation stop rule -/

/-- C3: after each level the last report line is checked against the rule
(column 3 above 85 and column 7 below 10000); a failed rule stops the loop
with no higher level run, a passed rule lets the loop continue; concretely,
with levels seq 2500 250 3000 = [2500, 2750, 3000] and reports (86,9000) then
(84,9500) the loop runs 2500 and 2750 and never 3000. -/
theorem escalation_stop_rule :
    (∀ (rep : Int → Int × Int) (active : Int) (rest : List Int),
        passRule (rep active) = false → rampLoop rep (active :: rest) = [active]) ∧
    (∀ (rep : Int → Int × Int) (active : Int) (rest : List Int),
        passRule (rep active) = true →
          rampLoop rep (active :: rest) = active :: rampLoop rep rest) ∧
    rampLoop repC3 (seqBash 2500 250 3000) = [2500, 2750] := by
  refine ⟨?_, ?_, ?_⟩
  · intro rep active rest h
    simp [rampLoop, h]
  · intro rep active rest h
    simp [rampLoop, h]
  · decide

/-- Witness for the stop rule: a failing first level runs alone, and a
passing level is followed by the rest of the ramp. -/
theorem escalation_stop_rule_check :
    rampLoop repC3 [3333] = [3333] ∧
    rampLoop repC3 [2500, 3333] = 2500 :: rampLoop repC3 [3333] :=
  ⟨escalation_stop_rule.1 repC3 3333 [] (by decide),
   escalation_stop_rule.2.1 repC3 2500 [3333] (by decide)⟩

/-! ### C1: the success marker after the ramp loop -/

/-- C1 (amended): whenever the ramp loop of tpcc.sh terminates normally, the
success marker is written, regardless of whether the loop exhausted its
levels or stopped at a failed rule, and regardless of whether any level
passed: the touch command sits unconditionally after the loop. -/
theorem successMarker_always_written (levels : List Int) (rep : Int → Int × Int) :
    (rampPhase levels rep).successWritten = true := rfl

/-- C1 counterexample to the stated claim: with levels [2500, 2750, 3000] and
every report failing the rule, the very first level fails, no level passes,
the loop stops at once, and the success marker is written anyway. -/
theorem successMarker_claim_counterexample :
    (rampPhase [2500, 2750, 3000] repFailFirst).successWritten = true ∧
    rampLoop repFailFirst [2500, 2750, 3000] = [2500] ∧
    passRule (repFailFirst 2500) = false := by
  refine ⟨rfl, by decide, by decide⟩

/-! ### C4: zero increment -/

/-- C4 counterexample to the stated claim: with the script defaults
f_active = 2500 and f_warehouses = 3500, a zero increment becomes 3500 and
seq 2500 3500 3500 runs exactly one level, but that level is the starting
level 2500, not the maximum 3500. -/
theorem inc_zero_counterexample :
    effInc 0 3500 = 3500 ∧
    seqBash 2500 (effInc 0 3500) 3500 = [2500] ∧
    (2500 : Int) ≠ 3500 := by
  refine ⟨rfl, by decide, by decide⟩

/-- C4 (amended): a zero increment is replaced by the warehouse maximum;
consequently, for every positive starting level not above the maximum the
loop runs exactly one level, namely the starting level (which equals the
maximum only when the two coincide). -/
theorem inc_zero_single_level (active wh : Int) (hpos : 0 < active) (hle : active ≤ wh) :
    seqBash active (effInc 0 wh) wh = [active] := by
  have hwh : 0 < wh := lt_of_lt_of_le hpos hle
  have heff : effInc 0 wh = wh := by simp [effInc]
  rw [heff]
  unfold seqBash
  rw [if_pos ⟨hwh, hle⟩]
  have hdiv : (wh - active).toNat / wh.toNat = 0 := by
    apply Nat.div_eq_of_lt
    omega
  rw [hdiv]
  simp [List.range_succ]

/-- Witness for the amended zero-increment property at the script defaults. -/
theorem inc_zero_single_level_check : seqBash 2500 (effInc 0 3500) 3500 = [2500] :=
  inc_zero_single_level 2500 3500 (by decide) (by decide)

/-! ### C5: identity sanitization -/

theorem digitChar_allowed : ∀ m : Nat, m < 10 → allowedChar (Nat.digitChar m) = true := by
  decide

theorem toDigitsCore_allowed (fuel : Nat) :
    ∀ (n : Nat) (ds : List Char), (∀ c ∈ ds, allowedChar c = true) →
      ∀ c ∈ Nat.toDigitsCore 10 fuel n ds, allowedChar c = true := by
  induction fuel with
  | zero =>
    intro n ds hds c hc
    exact hds c (by simpa [Nat.toDigitsCore] using hc)
  | succ fuel ih =>
    intro n ds hds c hc
    simp only [Nat.toDigitsCore] at hc
    have hdig : allowedChar (Nat.digitChar (n % 10)) = true :=
      digitChar_allowed (n % 10) (Nat.mod_lt n (by norm_num))
    by_cases h0 : n / 10 = 0
    · rw [if_pos h0] at hc
      rcases List.mem_cons.mp hc with hc | hc
      · rw [hc]; exact hdig
      · exact hds c hc
    · rw [if_neg h0] at hc
      refine ih (n / 10) (Nat.digitChar (n % 10) :: ds) ?_ c hc
      intro d hd
      rcases List.mem_cons.mp hd with hd | hd
      · rw [hd]; exact hdig
      · exact hds d hd

theorem repr_allowed (n : Nat) : ∀ c ∈ (Nat.repr n).data, allowedChar c = true := by
  intro c hc
  have hrepr : (Nat.repr n).data = Nat.toDigitsCore 10 (n + 1) n [] := rfl
  rw [hrepr] at hc
  exact toDigitsCore_allowed (n + 1) n [] (by simp) c hc

theorem sanitizeChar_allowed (d : Char)
    (h : allowedChar d = true ∨ d = '.' ∨ d = '|' ∨ d = '_') :
    allowedChar (sanitizeChar d) = true := by
  unfold sanitizeChar
  by_cases hd : (d == '.' || d == '|' || d == '_') = true
  · rw [if_pos hd]; decide
  · rw [if_neg hd]
    rcases h with h | h | h | h
    · exact h
    all_goals (exfalso; apply hd; simp [h])

theorem headSegment_allowed (yearMod : Nat) :
    ∀ c ∈ ("cldrprt" ++ Nat.repr yearMod ++ "-").data, allowedChar c = true := by
  intro c hc
  have hsplit : ("cldrprt" ++ Nat.repr yearMod ++ "-").data
      = "cldrprt".data ++ ((Nat.repr yearMod).data ++ "-".data) := rfl
  rw [hsplit] at hc
  have hfixed : ∀ c ∈ "cldrprt".data, allowedChar c = true := by decide
  have hdash : ∀ c ∈ "-".data, allowedChar c = true := by decide
  rcases List.mem_append.mp hc with hc | hc
  · exact hfixed c hc
  · rcases List.mem_append.mp hc with hc | hc
    · exact repr_allowed yearMod c hc
    · exact hdash c hc

theorem tailSegment_allowed (hashVal : Nat) :
    ∀ c ∈ ("-" ++ Nat.repr hashVal).data, allowedChar c = true := by
  intro c hc
  have hsplit : ("-" ++ Nat.repr hashVal).data = "-".data ++ (Nat.repr hashVal).data := rfl
  rw [hsplit] at hc
  have hdash : ∀ c ∈ "-".data, allowedChar c = true := by decide
  rcases List.mem_append.mp hc with hc | hc
  · exact hdash c hc
  · exact repr_allowed hashVal c hc

/-- C5 (amended): the sanitizer replaces exactly dot, pipe and underscore
with hyphens; consequently, whenever the machine type's characters are
letters, digits, hyphens, dots, pipes or underscores, the generated cluster
identity contains only letters, digits and hyphens (the year and hash parts
always render as digits). -/
theorem cluster_identity_sanitization (yearMod hashVal : Nat) (machineType : List Char)
    (hmt : ∀ c ∈ machineType, allowedChar c = true ∨ c = '.' ∨ c = '|' ∨ c = '_') :
    (clusterNameGen yearMod machineType hashVal).all allowedChar = true := by
  have hok : ∀ d ∈ clusterNameChars yearMod machineType hashVal,
      allowedChar d = true ∨ d = '.' ∨ d = '|' ∨ d = '_' := by
    unfold clusterNameChars
    rw [List.forall_mem_append, List.forall_mem_append]
    refine ⟨⟨fun d hd => Or.inl (headSegment_allowed yearMod d hd), hmt⟩,
      fun d hd => Or.inl (tailSegment_allowed hashVal d hd)⟩
  rw [List.all_eq_true]
  intro c hc
  unfold clusterNameGen sanitizeChars at hc
  rcases List.mem_map.mp hc with ⟨d, hd, rfl⟩
  exact sanitizeChar_allowed d (hok d hd)

/-- Witness: an AWS-style machine type with dots and underscores yields an
identity of letters, digits and hyphens only. -/
theorem cluster_identity_sanitization_check :
    (clusterNameGen 22 ("m5d.2xlarge_test".data) 977).all allowedChar = true :=
  cluster_identity_sanitization 22 977 ("m5d.2xlarge_test".data) (by decide)

/-- C5 counterexample to the stated claim: a machine type containing a slash
(a character outside the allowed set and outside the sanitizer's character
class) survives sanitization, so the generated identity is not restricted to
letters, digits and hyphens for every input. -/
theorem cluster_identity_counterexample :
    '/' ∈ clusterNameGen 22 ("a/b".data) 7 ∧ allowedChar '/' = false := by
  refine ⟨by decide, by decide⟩

/-! ### C6: error propagation in evalArgs -/

theorem subAt_self_append (needle t : List Char) : subAt needle (needle ++ t) = true := by
  induction needle with
  | nil => rfl
  | cons c cs ih => simp [subAt, ih]

theorem hasSub_of_subAt (needle hay : List Char) (h : subAt needle hay = true) :
    hasSub needle hay = true := by
  cases hay with
  | nil => simpa [hasSub] using h
  | cons d ds => simp [hasSub, h]

theorem hasSub_append_middle (p needle t : List Char) :
    hasSub needle (p ++ (needle ++ t)) = true := by
  induction p with
  | nil => exact hasSub_of_subAt needle (needle ++ t) (subAt_self_append needle t)
  | cons c cs ih =>
    simp only [List.cons_append]
    simp [hasSub, ih]

theorem string_data_append (s t : String) : (s ++ t).data = s.data ++ t.data := rfl

/-- C6 (amended): an Execute failure on any single argument value aborts
resolution through the returned-error path, and the error message names the
offending argument; when every value parses and executes, no argument is
dropped (the evaluated map holds exactly the input keys).  A Parse failure,
by contrast, aborts via the template.Must panic and never reaches the error
path that names the argument (see the counterexample). -/
theorem evalArgs_error_naming :
    (∀ (tparse : String → Except String Unit) (texec : String → Except String String)
        (pre : List (String × String)) (arg val : String) (post : List (String × String)),
        (∀ kv ∈ pre, exOk (tparse kv.2) = true ∧ exOk (texec kv.2) = true) →
        exOk (tparse val) = true →
        exOk (texec val) = false →
        namesArg (evalArgs tparse texec (pre ++ (arg, val) :: post)) arg = true) ∧
    (∀ (tparse : String → Except String Unit) (texec : String → Except String String)
        (args : List (String × String)),
        (∀ kv ∈ args, exOk (tparse kv.2) = true ∧ exOk (texec kv.2) = true) →
        keysOf (evalArgs tparse texec args) = some (args.map Prod.fst)) := by
  constructor
  · intro tparse texec pre arg val post hpre hparse hexec
    induction pre with
    | nil =>
      cases hp : tparse val with
      | error e => rw [hp] at hparse; simp [exOk] at hparse
      | ok u =>
        cases hx : texec val with
        | ok s => rw [hx] at hexec; simp [exOk] at hexec
        | error e =>
          simp only [List.nil_append, evalArgs, hp, hx, namesArg]
          have hmsg : ("error evaluating arg " ++ arg ++ ": " ++ e).data
              = "error evaluating arg ".data ++ (arg.data ++ (": " ++ e).data) := by
            simp [string_data_append, List.append_assoc]
          rw [hmsg]
          exact hasSub_append_middle "error evaluating arg ".data arg.data (": " ++ e).data
    | cons kv pre' ih =>
      obtain ⟨k, v⟩ := kv
      have hkv := hpre ⟨k, v⟩ (List.mem_cons_self _ _)
      have hpre' : ∀ kv ∈ pre', exOk (tparse kv.2) = true ∧ exOk (texec kv.2) = true :=
        fun kv hkv2 => hpre kv (List.mem_cons_of_mem _ hkv2)
      cases hp : tparse v with
      | error e => rw [hp] at hkv; simp [exOk] at hkv
      | ok u =>
        cases hx : texec v with
        | error e => rw [hx] at hkv; simp [exOk] at hkv
        | ok s =>
          have hr := ih hpre'
          simp only [List.cons_append, evalArgs, hp, hx]
          cases hres : evalArgs tparse texec (pre' ++ (arg, val) :: post) with
          | panicked m => rw [hres] at hr; simp [namesArg] at hr
          | errored m => rw [hres] at hr; simpa [namesArg] using hr
          | evaled m => rw [hres] at hr; simp [namesArg] at hr
  · intro tparse texec args hargs
    induction args with
    | nil => rfl
    | cons kv rest ih =>
      obtain ⟨k, v⟩ := kv
      have hkv := hargs ⟨k, v⟩ (List.mem_cons_self _ _)
      have hrest : ∀ kv ∈ rest, exOk (tparse kv.2) = true ∧ exOk (texec kv.2) = true :=
        fun kv hkv2 => hargs kv (List.mem_cons_of_mem _ hkv2)
      cases hp : tparse v with
      | error e => rw [hp] at hkv; simp [exOk] at hkv
      | ok u =>
        cases hx : texec v with
        | error e => rw [hx] at hkv; simp [exOk] at hkv
        | ok s =>
          have hr := ih hrest
          simp only [evalArgs, hp, hx]
          cases hres : evalArgs tparse texec rest with
          | panicked m => rw [hres] at hr; simp [keysOf] at hr
          | errored m => rw [hres] at hr; simp [keysOf] at hr
          | evaled m =>
            rw [hres] at hr
            simp only [keysOf, Option.some.injEq] at hr
            simp [keysOf, hr]

/-- Witness: with the concrete text/template oracles, an Execute failure on
the second argument reports an error naming that argument, and an all-good
map evaluates to the same key set. -/
theorem evalArgs_error_naming_check :
    namesArg (evalArgs tparse0 texec0
      ([("machine-local-ssd", "ok")] ++ ("gce-zones", "\x7b\x7b.Nope\x7d\x7d") :: []))
      "gce-zones" = true ∧
    keysOf (evalArgs tparse0 texec0 [("lifetime", "24h")]) = some ["lifetime"] :=
  ⟨evalArgs_error_naming.1 tparse0 texec0 [("machine-local-ssd", "ok")]
      "gce-zones" "\x7b\x7b.Nope\x7d\x7d" [] (by decide) (by decide) (by decide),
   evalArgs_error_naming.2 tparse0 texec0 [("lifetime", "24h")] (by decide)⟩

/-- C6 counterexample to the stated claim: a malformed (unparseable) template
value aborts through the template.Must panic, whose message does not name the
offending argument, so the for-any-malformed-value strengthening of the claim
fails on the code. -/
theorem evalArgs_parse_panic_counterexample :
    evalArgs tparse0 texec0 [("gce-zones", "\x7b\x7b")]
      = EvalOutcome.panicked "template: arg: unclosed action" ∧
    namesArg (evalArgs tparse0 texec0 [("gce-zones", "\x7b\x7b")]) "gce-zones" = false := by
  refine ⟨by decide, by decide⟩

/-! ### C7: resume mode -/

theorem waitFetch_map_all (bs : List String) :
    (bs.map DriverCmd.waitFetch).all (fun c => !(isStartBench c)) = true := by
  induction bs with
  | nil => rfl
  | cons b t ih => simp [isStartBench, ih]

theorem waitFetch_map_filter (bs : List String) :
    (bs.map DriverCmd.waitFetch).filter isWaitFetch = bs.map DriverCmd.waitFetch := by
  induction bs with
  | nil => rfl
  | cons b t ih => simp [isWaitFetch, ih]

/-- C7: with resume set, the driver trace holds no benchmark-start command,
while the wait-and-fetch commands are exactly one per requested benchmark,
in request order. -/
theorem resume_skips_starts (f : DriverFlags) (h : f.resume = true) :
    (driverTrace f).all (fun c => !(isStartBench c)) = true ∧
    (driverTrace f).filter isWaitFetch = f.benchmarks.map DriverCmd.waitFetch := by
  obtain ⟨c1, c2, c3, c4, r, bs⟩ := f
  simp only at h
  subst h
  cases c1 <;> cases c2 <;> cases c3 <;> cases c4 <;>
    simp [driverTrace, List.all_append, List.filter_append, waitFetch_map_all,
      waitFetch_map_filter, isStartBench, isWaitFetch]

/-- Witness: a resume-mode invocation requesting the cpu and tpcc benchmarks
starts nothing and waits for both in order. -/
theorem resume_skips_starts_check :
    (driverTrace resumeOnlyFlags).all (fun c => !(isStartBench c)) = true ∧
    (driverTrace resumeOnlyFlags).filter isWaitFetch
      = ["bench_cpu", "bench_tpcc"].map DriverCmd.waitFetch :=
  resume_skips_starts resumeOnlyFlags rfl

/-! ### C8: liveness-marker cleanup -/

theorem runGuarded_trapOn (oracle : Nat → StepOutcome) (steps : List TpccStep) :
    ∀ (i : Nat) (s : TrapState), s.trapInstalled = true →
      (runGuarded oracle i s steps).pidfilePresent = false := by
  induction steps with
  | nil =>
    intro i s hs
    simp [runGuarded, onExit, hs]
  | cons step rest ih =>
    intro i s hs
    cases ho : oracle i with
    | interrupt => simp [runGuarded, ho, onExit, hs]
    | fail => simp [runGuarded, ho, onExit, hs]
    | ok =>
      cases step with
      | installTrap =>
        simp only [runGuarded, ho]
        exact ih (i + 1) _ rfl
      | writePidfile =>
        simp only [runGuarded, ho]
        exact ih (i + 1) _ hs
      | shellCmd =>
        simp only [runGuarded, ho]
        exact ih (i + 1) _ hs

/-- C8: however a run of the guarded section ends - running the body to
completion, a failing command under set -e, or a SIGINT before any step -
the pid file is absent afterwards, because the trap (installed before the pid
file is written) removes it on every exit path. -/
theorem pidfile_cleanup_all_paths (oracle : Nat → StepOutcome) (body : List TpccStep) :
    (runGuarded oracle 0 ⟨false, false⟩ (tpccMainSteps body)).pidfilePresent = false := by
  unfold tpccMainSteps
  cases ho : oracle 0 with
  | interrupt => simp [runGuarded, ho, onExit]
  | fail => simp [runGuarded, ho, onExit]
  | ok =>
    simp only [runGuarded, ho]
    exact runGuarded_trapOn oracle (TpccStep.writePidfile :: body) 1 ⟨false, true⟩ rfl

/-! ### C9: rendering of the deployment-argument string -/

theorem length_pos_of_ne_empty (s : String) (h : s ≠ "") : 0 < s.length := by
  have hd : s.data ≠ [] := by
    intro hnil
    apply h
    cases s
    simp only at hnil
    rw [hnil]
  have hlen : s.length = s.data.length := rfl
  rw [hlen]
  exact List.length_pos.mpr hd

theorem renderArg_eq_specFragment (kv : String × String) :
    renderArg kv = specFragment kv := by
  unfold renderArg specFragment
  by_cases h : kv.2 = ""
  · have hz : ¬ (0 < kv.2.length) := by
      rw [h]
      decide
    rw [if_pos h, if_neg hz]
    simp
  · rw [if_neg h, if_pos (length_pos_of_ne_empty kv.2 h)]
    simp [String.append_assoc]

theorem renderArg_length_pos (kv : String × String) : 0 < (renderArg kv).length := by
  unfold renderArg
  simp only [String.length_append]
  have h2 : 0 < ("--" : String).length := by decide
  omega

theorem renderFold_acc (l : List (String × String)) :
    ∀ b : String, 0 < b.length → List.foldl renderStep b l = b ++ joinTail l := by
  induction l with
  | nil =>
    intro b hb
    simp [joinTail]
  | cons kv rest ih =>
    intro b hb
    simp only [List.foldl, joinTail]
    have hstep : renderStep b kv = b ++ " " ++ renderArg kv := by
      unfold renderStep
      rw [if_pos hb]
    rw [hstep]
    have hpos : 0 < (b ++ " " ++ renderArg kv).length := by
      simp only [String.length_append]
      omega
    rw [ih _ hpos]
    simp [String.append_assoc]

theorem specFragment_joinTail (kv : String × String) (rest : List (String × String)) :
    specFragment kv ++ joinTail rest = renderedSpec (kv :: rest) := by
  induction rest generalizing kv with
  | nil => simp [joinTail, renderedSpec]
  | cons kv2 r2 ih =>
    simp only [joinTail, renderedSpec]
    rw [← ih kv2, renderArg_eq_specFragment]
    simp [String.append_assoc]

/-- C9: the rendered deployment-argument string consists of the per-argument
fragments joined by single spaces, where an argument with an empty value
renders as the bare flag and an argument with a non-empty value renders as
the flag, an equals sign, and the double-quoted value. -/
theorem evaled_args_rendering (args : List (String × String)) :
    renderEvaledArgs args = renderedSpec args := by
  cases args with
  | nil => rfl
  | cons kv rest =>
    unfold renderEvaledArgs
    simp only [List.foldl]
    have h1 : renderStep "" kv = renderArg kv := by
      unfold renderStep
      have hz : ¬ (0 < ("" : String).length) := by decide
      rw [if_neg hz]
      have : ("" : String) ++ renderArg kv = renderArg kv := by
        simp
      rw [this]
    rw [h1, renderFold_acc rest (renderArg kv) (renderArg_length_pos kv),
      renderArg_eq_specFragment, specFragment_joinTail]

/-! ### C10: targets only read the shared cloud-level maps -/

/-- C10 (amended): resolving a target never writes the cloud-level default
map: its contents after combineArgs are exactly its contents before, and a
later merge against it (for another target) gives the same result it would
have given beforehand.  However, when the machine map is nil the returned
merged map aliases the cloud-level map object (see the counterexample), so
the independence of targets rests on the merged map being only read
afterwards, not on the absence of aliasing. -/
theorem combineArgs_base_readonly (machineRef : Option Nat) (baseRef : Nat)
    (st : Nat → List (String × String)) (hdiff : machineRef ≠ some baseRef) :
    (combineArgsHeap machineRef baseRef st).2 baseRef = st baseRef ∧
    (∀ ma2 : Option (List (String × String)),
        combineArgs ma2 ((combineArgsHeap machineRef baseRef st).2 baseRef)
          = combineArgs ma2 (st baseRef)) := by
  cases machineRef with
  | none => exact ⟨rfl, fun _ => rfl⟩
  | some r =>
    have hr : ¬ (baseRef = r) := by
      intro h
      exact hdiff (by rw [h])
    constructor
    · simp [combineArgsHeap, hr]
    · intro ma2
      simp [combineArgsHeap, hr]

/-- Witness: with the concrete two-map store, merging machine map 1 onto
cloud map 0 leaves map 0's contents unchanged and a later merge against it
unaffected. -/
theorem combineArgs_base_readonly_check :
    (combineArgsHeap (some 1) 0 st1).2 0 = st1 0 ∧
    combineArgs (some [("machine-local-ssd", "true")]) ((combineArgsHeap (some 1) 0 st1).2 0)
      = combineArgs (some [("machine-local-ssd", "true")]) (st1 0) := by
  have h := combineArgs_base_readonly (some 1) 0 st1 (by simp)
  exact ⟨h.1, h.2 (some [("machine-local-ssd", "true")])⟩

/-- C10 counterexample to the stated claim: when a machine type carries no
map of its own (the nil case), combineArgs returns the cloud-level map object
itself, so the per-target merged map does alias the shared cloud-level map. -/
theorem combineArgs_alias_counterexample :
    (combineArgsHeap none 0 st1).1 = 0 := rfl
